import Mathlib

/-!
Shallow embedding of the OrganoidTracker core data model and its operations,
together with theorems settling the specification claims about them.

Conventions of the embedding:
* Python floats are modelled as rationals (`ℚ`); all arithmetic in the relevant
  code paths is exact field arithmetic except calls to `math.sqrt`/`numpy.sqrt`,
  which are modelled by an abstract function parameter `sq : ℚ → ℚ`.
* Fallible code (Python code that can raise) is modelled with `Except`; the
  error payload records what the exception carries where that matters.
* Mutation is modelled by explicit state passing: a function that mutates an
  argument additionally returns the updated value of that argument.
-/

namespace OrganoidTracker

/-- Embeds the `Particle` class of `imaging/__init__.py`: an x/y/z position in
pixel coordinates plus an optional time point number (which starts out unset). -/
structure Particle where
  x : ℚ
  y : ℚ
  z : ℚ
  time_point_number : Option ℤ
deriving DecidableEq

/-- Embeds `Particle.distance_squared` (imaging/__init__.py line 29): squared
distance with the z difference scaled by `z_factor` (default 5 at call sites). -/
def distance_squared (self other : Particle) (z_factor : ℚ) : ℚ :=
  (self.x - other.x) ^ 2 + (self.y - other.y) ^ 2 + ((self.z - other.z) * z_factor) ^ 2

/-- Models Python's built-in `abs` on floats, kept executable. -/
def pyAbs (q : ℚ) : ℚ :=
  if q < 0 then -q else q

/-- Embeds `Particle.__eq__` (imaging/__init__.py lines 58-61) exactly as written:
the code compares `self.x - other.x` against the epsilon twice and compares z and
the time point number, but never compares the y coordinates. -/
def particle_eq (self other : Particle) : Bool :=
  pyAbs (self.x - other.x) < 1/100000 && pyAbs (self.x - other.x) < 1/100000
    && pyAbs (self.z - other.z) < 1/100000
    && self.time_point_number == other.time_point_number

/-- Equality as the specification describes it (exact on the time point number,
within epsilon on each of x, y and z); stated only to compare against the
source-derived `particle_eq`. -/
def particle_eq_spec (self other : Particle) : Bool :=
  pyAbs (self.x - other.x) < 1/100000 && pyAbs (self.y - other.y) < 1/100000
    && pyAbs (self.z - other.z) < 1/100000
    && self.time_point_number == other.time_point_number

/-- Embeds `Particle.with_time_point_number` (imaging/__init__.py lines 37-41):
raises `ValueError` when the time point number was already set, otherwise sets it. -/
def with_time_point_number (self : Particle) (t : ℤ) : Except String Particle :=
  match self.time_point_number with
  | some _ => Except.error "time_point_number was already set"
  | none => Except.ok { self with time_point_number := some t }

/-- Embeds `TimePoint.add_particles` (imaging/__init__.py lines 189-194): each
particle gets the time point number set (which raises if it was already set)
and is appended to the time point's particle list. -/
def add_particles (time_point_number : ℤ) (existing : List Particle)
    (new : List Particle) : Except String (List Particle) :=
  new.foldlM (fun acc particle =>
    (with_time_point_number particle time_point_number).map (fun p => acc ++ [p])) existing

/-- State carried through the loop of `get_closest_particle`: the best particle
found so far, the best squared distance so far, and the current (possibly
mutated) search position. -/
structure ClosestState where
  closest_particle : Option Particle
  closest_distance_squared : ℚ
  search_position : Particle
deriving DecidableEq

/-- One iteration of the loop in `get_closest_particle` (imaging/__init__.py
lines 327-333): with `ignore_z` the z of the search position is overwritten with
the candidate's z before the distance is computed, and that overwrite persists. -/
def get_closest_particle_step (ignore_z : Bool) (st : ClosestState)
    (particle : Particle) : ClosestState :=
  let pos := if ignore_z then { st.search_position with z := particle.z }
             else st.search_position
  let d := distance_squared particle pos 5
  if d < st.closest_distance_squared then
    { closest_particle := some particle, closest_distance_squared := d, search_position := pos }
  else
    { st with search_position := pos }

/-- Embeds `get_closest_particle` (imaging/__init__.py lines 321-335). The
mutation of the `search_position` argument is made explicit: the function
returns the found particle together with the final value of `search_position`. -/
def get_closest_particle (particles : List Particle) (search_position : Particle)
    (ignore_z : Bool) (max_distance : ℚ) : Option Particle × Particle :=
  let final := particles.foldl (get_closest_particle_step ignore_z)
    { closest_particle := none, closest_distance_squared := max_distance ^ 2,
      search_position := search_position }
  (final.closest_particle, final.search_position)

end OrganoidTracker

namespace OrganoidTracker

/-- Embeds the `Severity` enum of `organoid_tracker/linking_analysis/errors.py`. -/
inductive Severity where
  | WARNING
  | ERROR
deriving DecidableEq

/-- Error kinds are identified by their enum value (`Error` in
`organoid_tracker/linking_analysis/errors.py` assigns the values 1 to 14); the
lookup functions accept any value so that the behaviour on kinds missing from
the static table is expressible. -/
abbrev ErrorKind := ℕ

def NO_FUTURE_POSITION : ErrorKind := 1
def POTENTIALLY_NOT_A_MOTHER : ErrorKind := 2
def POTENTIALLY_SHOULD_BE_A_MOTHER : ErrorKind := 3
def TOO_MANY_DAUGHTER_CELLS : ErrorKind := 4
def NO_PAST_POSITION : ErrorKind := 5
def CELL_MERGE : ErrorKind := 6
def POTENTIALLY_WRONG_DAUGHTERS : ErrorKind := 7
def YOUNG_MOTHER : ErrorKind := 8
def LOW_MOTHER_SCORE : ErrorKind := 9
def SHRUNK_A_LOT : ErrorKind := 10
def MOVED_TOO_FAST : ErrorKind := 11
def FAILED_SHAPE : ErrorKind := 12
def UNCERTAIN_POSITION : ErrorKind := 13
def LOW_LINK_SCORE : ErrorKind := 14

/-- Embeds the static `__info` table of
`organoid_tracker/linking_analysis/errors.py` (lines 36-53): severity and
message per error kind; `none` models absence from the dictionary. -/
def error_info (e : ErrorKind) : Option (Severity × String) :=
  if e = NO_FUTURE_POSITION then
    some (Severity.WARNING, "This cell has no links to the future. Please check if this is correct.")
  else if e = POTENTIALLY_NOT_A_MOTHER then
    some (Severity.WARNING, "This cell is maybe not a mother; nearby cell has similar likeliness.")
  else if e = POTENTIALLY_SHOULD_BE_A_MOTHER then
    some (Severity.WARNING, "This cell is possibly a mother; its score is high enough.")
  else if e = TOO_MANY_DAUGHTER_CELLS then
    some (Severity.ERROR, "This cell has more than two daughter cells. This is impossible.")
  else if e = NO_PAST_POSITION then
    some (Severity.ERROR, "This cell popped up out of nothing.")
  else if e = CELL_MERGE then
    some (Severity.ERROR, "Two cells merged together into this cell. This is impossible.")
  else if e = POTENTIALLY_WRONG_DAUGHTERS then
    some (Severity.WARNING, "One of the two daughter cells is maybe wrong.")
  else if e = YOUNG_MOTHER then
    some (Severity.ERROR, "This is most likely not a mother cell: it is a very young cell.")
  else if e = LOW_MOTHER_SCORE then
    some (Severity.WARNING, "This cell is probably not a mother cell.")
  else if e = SHRUNK_A_LOT then
    some (Severity.WARNING, "This cell just shrank a lot in size. It may be a mother or daughter cell.")
  else if e = MOVED_TOO_FAST then
    some (Severity.WARNING, "This cell just moved very quickly. The link coming from the past may be wrong.")
  else if e = FAILED_SHAPE then
    some (Severity.WARNING, "This cell has an irregular shape. Maybe it was a misdetection, or it should be a mother cell.")
  else if e = UNCERTAIN_POSITION then
    some (Severity.WARNING, "Uncertain if there actually is a cell here.")
  else if e = LOW_LINK_SCORE then
    some (Severity.WARNING, "This is probably not a correct link.")
  else none

/-- Embeds `_get_severity` (errors.py lines 56-61): table lookup, with a
`KeyError` on a missing kind caught and turned into `Severity.ERROR`. -/
def get_severity (e : ErrorKind) : Severity :=
  match error_info e with
  | some info => info.1
  | none => Severity.ERROR

/-- Embeds `_get_message` (errors.py lines 64-69): table lookup, with a
`KeyError` on a missing kind caught and turned into a generic message. -/
def get_message (e : ErrorKind) : String :=
  match error_info e with
  | some info => info.2
  | none => "Unknown error code " ++ toString e

/-- Insertion of a `(distance_squared, particle)` pair into a distance-sorted
list, after all pairs with an equal or smaller key. `get_closest_n_particles`
appends the new pair and then calls `list.sort(key=itemgetter(0))`; since the
list is sorted by construction before the append, Python's stable sort places
the appended pair exactly here, so the append-then-sort is embedded as this
ordered insertion. -/
def insertSorted (a : ℚ × Particle) : List (ℚ × Particle) → List (ℚ × Particle)
  | [] => [a]
  | b :: l => if a.1 < b.1 then a :: b :: l else b :: insertSorted a l

/-- Embeds `del closest_particles[-1]` guarded by `len(closest_particles) > amount`
(imaging/__init__.py lines 351-353). -/
def trimToAmount (amount : ℕ) (l : List (ℚ × Particle)) : List (ℚ × Particle) :=
  if amount < l.length then l.dropLast else l

/-- One iteration of the loop in `get_closest_n_particles` (imaging/__init__.py
lines 343-353). Python's `closest_particles[-1]` raises `IndexError` on an empty
list (reachable only with `amount = 0`); that exception is the `Except.error`. -/
def get_closest_n_particles_step (search_position : Particle) (amount : ℕ)
    (max_distance_squared : ℚ) (closest : List (ℚ × Particle)) (particle : Particle) :
    Except Unit (List (ℚ × Particle)) :=
  let dsq := distance_squared particle search_position 5
  if dsq > max_distance_squared then Except.ok closest
  else if closest.length < amount then
    Except.ok (trimToAmount amount (insertSorted (dsq, particle) closest))
  else
    match closest.getLast? with
    | none => Except.error ()
    | some last =>
      if last.1 > dsq then
        Except.ok (trimToAmount amount (insertSorted (dsq, particle) closest))
      else
        Except.ok closest

/-- Embeds `get_closest_n_particles` (imaging/__init__.py lines 338-358). The
returned Python set is represented by the final list of particles in order of
increasing distance (the set is built from exactly these particles). -/
def get_closest_n_particles (particles : List Particle) (search_position : Particle)
    (amount : ℕ) (max_distance : ℚ) : Except Unit (List Particle) :=
  (particles.foldlM (get_closest_n_particles_step search_position amount (max_distance ^ 2))
    []).map (List.map Prod.snd)

/-- Embeds the `Path` class of `autotrack/core/path.py`: the explicit control
points, the z coordinate set by the first added point, and the calibration
offset. The cached interpolation is recomputed transparently (it is invalidated
on every mutation of the control points, and no claim exercises a stale cache). -/
structure PyPath where
  x_list : List ℚ
  y_list : List ℚ
  z : Option ℤ
  offset : ℚ
deriving DecidableEq

/-- Result of `Path.get_path_position_2d` (the `PathPosition` named tuple,
without the self-reference to the path): the offset-adjusted distance along the
path and the perpendicular distance to the path. -/
structure PathPos where
  pos : ℚ
  distance : ℚ
deriving DecidableEq

/-- Embeds `_distance_squared` of `autotrack/core/path.py`. -/
def distance_squared_2d (vx vy wx wy : ℚ) : ℚ :=
  (vx - wx) ^ 2 + (vy - wy) ^ 2

/-- Embeds `_distance` of `autotrack/core/path.py`; `sq` models `numpy.sqrt`. -/
def distance_2d (sq : ℚ → ℚ) (x1 y1 x2 y2 : ℚ) : ℚ :=
  sq ((x1 - x2) ^ 2 + (y1 - y2) ^ 2)

/-- Embeds `_distance_to_line_segment_squared` of `autotrack/core/path.py`
(lines 188-196): squared distance from a point to a line segment, with the
projection parameter clamped to the segment. -/
def distance_to_line_segment_squared (line_x1 line_y1 line_x2 line_y2 point_x point_y : ℚ) : ℚ :=
  let l2 := distance_squared_2d line_x1 line_y1 line_x2 line_y2
  if l2 = 0 then distance_squared_2d point_x point_y line_x1 line_y1
  else
    let t := ((point_x - line_x1) * (line_x2 - line_x1)
      + (point_y - line_y1) * (line_y2 - line_y1)) / l2
    let t := max 0 (min 1 t)
    distance_squared_2d point_x point_y
      (line_x1 + t * (line_x2 - line_x1)) (line_y1 + t * (line_y2 - line_y1))

/-- Embeds `Path._calculate_interpolation` (path.py lines 57-68): with one or
zero control points the points themselves are returned; otherwise the scipy
spline fit and sampling, which is external library code, is modelled by the
abstract function `spline` (the real one returns 21 sample points). -/
def calculate_interpolation (spline : List ℚ → List ℚ → List ℚ × List ℚ)
    (p : PyPath) : List ℚ × List ℚ :=
  if p.x_list.length ≤ 1 then (p.x_list, p.y_list)
  else spline p.x_list p.y_list

/-- The segment-search loop of `Path.get_path_position_2d` (path.py lines
78-88): over line indices `i` in `[1, number of samples)`, track the minimal
squared distance and the first index attaining it. -/
def findClosestSegment (xs ys : List ℚ) (px py : ℚ) : Option (ℚ × ℕ) :=
  (List.range' 1 (xs.length - 1)).foldl (fun acc i =>
    let d := distance_to_line_segment_squared
      (xs.getD (i - 1) 0) (ys.getD (i - 1) 0) (xs.getD i 0) (ys.getD i 0) px py
    match acc with
    | none => some (d, i)
    | some best => if d < best.1 then some (d, i) else some best) none

/-- The raw (offset-free) path position computed by `Path.get_path_position_2d`
(path.py lines 90-100) for a closest segment index `closest` with squared
distance `min_dsq`: the summed lengths of the preceding segments plus the
distance travelled into the winning segment. -/
def rawPathPosition (sq : ℚ → ℚ) (xs ys : List ℚ) (px py : ℚ)
    (closest : ℕ) (min_dsq : ℚ) : ℚ :=
  let combined := ((List.range' 1 (closest - 1)).map (fun i =>
    distance_2d sq (xs.getD i 0) (ys.getD i 0) (xs.getD (i - 1) 0) (ys.getD (i - 1) 0))).sum
  let to_start := distance_squared_2d (xs.getD (closest - 1) 0) (ys.getD (closest - 1) 0) px py
  combined + sq (to_start - min_dsq)

/-- Embeds `Path.get_path_position_2d` (path.py lines 70-101): `none` when the
interpolation has fewer than 2 points, otherwise the offset-adjusted position
along the path and the perpendicular distance. -/
def get_path_position_2d (sq : ℚ → ℚ) (spline : List ℚ → List ℚ → List ℚ × List ℚ)
    (p : PyPath) (particle : Particle) : Option PathPos :=
  let interp := calculate_interpolation spline p
  let xs := interp.1
  let ys := interp.2
  if xs.length < 2 then none
  else
    match findClosestSegment xs ys particle.x particle.y with
    | none => none
    | some best =>
      some { pos := rawPathPosition sq xs ys particle.x particle.y best.2 best.1 - p.offset,
             distance := sq best.1 }

/-- One step of the minimum-tracking loop of `Path.update_offset_for_particles`
(path.py lines 152-154): keep the current lowest, replace it on a strictly
smaller value, start from the first value. -/
def lowStep (acc : Option ℚ) (v : ℚ) : Option ℚ :=
  match acc with
  | none => some v
  | some m => if v < m then some v else some m

/-- The minimum-tracking loop of `Path.update_offset_for_particles` (path.py
lines 150-154), also used to state the calibration property: `none` for the
empty list, otherwise the least value. -/
def foldLowest (l : List ℚ) : Option ℚ :=
  l.foldl lowStep none

/-- Embeds `Path.update_offset_for_particles` (path.py lines 143-156): with
fewer than 2 control points nothing happens; otherwise the offset grows by the
lowest path position of the given particles. `self.get_path_position_2d(particle).pos`
raises `AttributeError` when the call returns `None`; that is the `Except.error`. -/
def update_offset_for_particles (sq : ℚ → ℚ) (spline : List ℚ → List ℚ → List ℚ × List ℚ)
    (p : PyPath) (particles : List Particle) : Except Unit PyPath :=
  if p.x_list.length < 2 then Except.ok p
  else do
    let lowest ← particles.foldlM (fun acc particle =>
      match get_path_position_2d sq spline p particle with
      | none => Except.error ()
      | some pp => Except.ok (lowStep acc pp.pos)) (none : Option ℚ)
    match lowest with
    | none => Except.ok p
    | some m => Except.ok { p with offset := p.offset + m }

/-- Embeds `PathCollection.get_path_position_2d` (path.py lines 214-226) for the
list of paths stored at the particle's time point (an absent time point behaves
as the empty list). When a previous path already produced a position and the
next path returns `None`, the code evaluates `position.distance` on `None` and
raises `AttributeError`; that is the `Except.error`. -/
def path_collection_get_path_position_2d (sq : ℚ → ℚ)
    (spline : List ℚ → List ℚ → List ℚ × List ℚ)
    (paths : List PyPath) (particle : Particle) : Except Unit (Option PathPos) :=
  paths.foldlM (fun lowest path =>
    let position := get_path_position_2d sq spline path particle
    match lowest with
    | none => Except.ok position
    | some l =>
      match position with
      | none => Except.error ()
      | some pp => Except.ok (if pp.distance < l.distance then some pp else some l))
    (none : Option PathPos)

/-- A node-link graph serialization as read by `networkx.node_link_graph`:
the nodes are particles and the links are (source, target) particle pairs. -/
structure NodeLinkData where
  nodes : List Particle
  links : List (Particle × Particle)
deriving DecidableEq

/-- A raw particle entry of the position/shape format: the first three floats
are the x, y and z coordinates (`raw_particle[0:3]`), the remainder is the
shape data (`raw_particle[3:]`), which the claims do not inspect. -/
structure RawParticle where
  x : ℚ
  y : ℚ
  z : ℚ
  shape_data : List ℚ
deriving DecidableEq

/-- The position/shape JSON mapping: time point number (already converted from
its string key) to the list of raw particle entries. -/
abbrev ShapeData := List (ℤ × List RawParticle)

/-- The JSON data files `_load_json_data_file` (autotrack/imaging/io.py lines
50-85) discriminates between: a file with a `version` key (with optional
`shapes`, `links_scratch` and `links_baseline` sections), a bare node-link
file (no `version` key, but `directed` or `links` present), and a bare
time-point-to-particles mapping. -/
inductive JsonData where
  | withVersion (version : String) (shapes : Option ShapeData)
      (links_scratch : Option NodeLinkData) (links_baseline : Option NodeLinkData)
  | noVersionLinks (d : NodeLinkData)
  | noVersionShapes (s : ShapeData)

/-- Modelled from the spec: the experiment state that loading fills in
(`Experiment`, `ParticleCollection` and `Links` of `autotrack/core` are not in
the sources, only their callers are). Per the spec the experiment holds the
per-time-point positions plus the scratch and baseline link graphs; `add`
operations simply accumulate. -/
structure LoadedExperiment where
  positions : List Particle
  links_scratch : Option NodeLinkData
  links_baseline : Option NodeLinkData
deriving DecidableEq

/-- Embeds `_parse_shape_format` (autotrack/imaging/io.py lines 97-106): time
points outside the inclusive `[min_time_point, max_time_point]` range are
skipped; every kept raw particle becomes a particle carrying that time point. -/
def parse_shape_format (json_structure : ShapeData)
    (min_time_point max_time_point : ℤ) : List Particle :=
  json_structure.foldl (fun acc entry =>
    if entry.1 < min_time_point ∨ entry.1 > max_time_point then acc
    else acc ++ entry.2.map (fun r => ⟨r.x, r.y, r.z, some entry.1⟩)) []

/-- Embeds `_load_json_data_file` (autotrack/imaging/io.py lines 50-85).
Without a `version` key, a node-link file is parsed by `_parse_links_format`
(baseline links, all graph nodes added as particles, no time filtering) and a
bare mapping by `_parse_shape_format` (time filtered). With a `version` key the
version must be `v1` (else `ValueError`, the `Except.error`); then the `shapes`
section is time filtered, while the `links_scratch` and `links_baseline`
sections have all their nodes added as particles without any time filtering. -/
def load_json_data_file (data : JsonData)
    (min_time_point max_time_point : ℤ) : Except String LoadedExperiment :=
  match data with
  | JsonData.noVersionLinks d =>
    Except.ok { positions := d.nodes, links_scratch := none, links_baseline := some d }
  | JsonData.noVersionShapes s =>
    Except.ok { positions := parse_shape_format s min_time_point max_time_point,
                links_scratch := none, links_baseline := none }
  | JsonData.withVersion version shapes ls lb =>
    if version ≠ "v1" then
      Except.error ("This program is not able to load data of version " ++ version ++ ".")
    else
      let fromShapes := match shapes with
        | some s => parse_shape_format s min_time_point max_time_point
        | none => []
      let fromScratch := match ls with
        | some d => d.nodes
        | none => []
      let fromBaseline := match lb with
        | some d => d.nodes
        | none => []
      Except.ok { positions := fromShapes ++ fromScratch ++ fromBaseline,
                  links_scratch := ls, links_baseline := lb }

/-- Embeds the node filter of `load_links_from_json` (autotrack/imaging/io.py
lines 247-248). `min_time_point <= entry["id"].time_point_number()` raises
`TypeError` when the time point number is `None`; that is the `Except.error`. -/
def filter_nodes (min_time_point max_time_point : ℤ) (nodes : List Particle) :
    Except Unit (List Particle) :=
  nodes.foldlM (fun acc p =>
    match p.time_point_number with
    | none => Except.error ()
    | some t => Except.ok (if min_time_point ≤ t ∧ t ≤ max_time_point then acc ++ [p] else acc)) []

/-- Embeds the link filter of `load_links_from_json` (autotrack/imaging/io.py
lines 249-251): a link is kept when both its source and its target lie in the
range; the chained comparison only reaches the target when the source is in
range, and raises `TypeError` on a `None` time point that it does reach. -/
def filter_links (min_time_point max_time_point : ℤ) (links : List (Particle × Particle)) :
    Except Unit (List (Particle × Particle)) :=
  links.foldlM (fun acc l =>
    match l.1.time_point_number with
    | none => Except.error ()
    | some ts =>
      if min_time_point ≤ ts ∧ ts ≤ max_time_point then
        match l.2.time_point_number with
        | none => Except.error ()
        | some tt =>
          Except.ok (if min_time_point ≤ tt ∧ tt ≤ max_time_point then acc ++ [l] else acc)
      else Except.ok acc) []

/-- Embeds `load_links_from_json` (autotrack/imaging/io.py lines 238-253) after
the node-link payload has been extracted from the JSON: nodes and links whose
time point numbers fall outside the inclusive range are removed. -/
def load_links_from_json (d : NodeLinkData) (min_time_point max_time_point : ℤ) :
    Except Unit NodeLinkData :=
  do
    let nodes ← filter_nodes min_time_point max_time_point d.nodes
    let links ← filter_links min_time_point max_time_point d.links
    return { nodes := nodes, links := links }

/-- Models `DataFrame.to_csv`: the ambient file system is abstracted by the
`writable` predicate, and a write to a non-writable path raises
`PermissionError`, which carries the offending path (the `Except.error`). -/
def to_csv (writable : String → Bool) (path : String) : Except String Unit :=
  if writable path then Except.ok () else Except.error path

/-- Embeds `save_dataframe_to_csv` (autotrack/imaging/io.py lines 203-210 and
identically imaging/io.py lines 119-126): try the primary path; on
`PermissionError` write to the path with `.ALT` appended and then re-raise the
original error — unless the alternate write itself raises, in which case that
exception propagates. Returns the list of paths successfully written together
with the outcome. -/
def save_dataframe_to_csv (writable : String → Bool) (csv_file_name : String) :
    List String × Except String Unit :=
  match to_csv writable csv_file_name with
  | Except.ok () => ([csv_file_name], Except.ok ())
  | Except.error e =>
    match to_csv writable (csv_file_name ++ ".ALT") with
    | Except.ok () => ([csv_file_name ++ ".ALT"], Except.error e)
    | Except.error e2 => ([], Except.error e2)

/-- Loop invariant of `get_closest_n_particles`: the candidate list is sorted by
squared distance, holds at most `amount` entries, every entry records the true
squared distance of an already-processed qualifying particle, every processed
qualifying particle that is not in the list is at least as far as every entry,
and while the list is not yet full it holds every processed qualifying particle. -/
def GcnInv (search_position : Particle) (amount : ℕ) (max_dsq : ℚ)
    (processed : List Particle) (closest : List (ℚ × Particle)) : Prop :=
  List.Pairwise (fun a b => a.1 ≤ b.1) closest ∧
  closest.length ≤ amount ∧
  (∀ e ∈ closest, e.1 = distance_squared e.2 search_position 5 ∧ e.2 ∈ processed ∧ e.1 ≤ max_dsq) ∧
  (∀ q ∈ processed, distance_squared q search_position 5 ≤ max_dsq →
    q ∉ closest.map Prod.snd → ∀ e ∈ closest, e.1 ≤ distance_squared q search_position 5) ∧
  (closest.length < amount → ∀ q ∈ processed,
    distance_squared q search_position 5 ≤ max_dsq → q ∈ closest.map Prod.snd)

/-- The candidate list of the nearest-neighbour test
(`tests/test_find_nearest.py` line 12). -/
def testCandidates : List Particle :=
  [⟨0, 0, 0, none⟩, ⟨0, 7, 0, none⟩, ⟨0, 2, 0, none⟩, ⟨0, 1, 0, none⟩, ⟨0, 3, 0, none⟩]

/-- Concrete stand-in for the abstract spline parameter, used to evaluate the
path functions on closed inputs: it returns the sample points unchanged. -/
def idSpline : List ℚ → List ℚ → List ℚ × List ℚ := fun xs ys => (xs, ys)

/-- A v1 data file whose `links_scratch` section holds one node at time point
10, used to exercise the missing time filter on the links sections. -/
def scratchAt10 : JsonData :=
  JsonData.withVersion "v1" none (some ⟨[⟨1, 2, 3, some 10⟩], []⟩) none

end OrganoidTracker

namespace OrganoidTracker

/-- C1: `Particle.__eq__` compares the x difference against the epsilon twice
and never compares y, so two particles at the same time point that differ only
in y (here by 5, far beyond the epsilon) are reported equal by the code, while
the claimed equality (approximate on all three of x, y and z) rejects them. -/
theorem C1_particle_eq_ignores_y :
    particle_eq ⟨0, 0, 0, some 1⟩ ⟨0, 5, 0, some 1⟩ = true ∧
    particle_eq_spec ⟨0, 0, 0, some 1⟩ ⟨0, 5, 0, some 1⟩ = false ∧
    ¬(pyAbs ((0 : ℚ) - 5) < 1 / 100000) := by
  refine ⟨?_, ?_, ?_⟩ <;> norm_num [particle_eq, particle_eq_spec, pyAbs]

/-- C6: an error kind missing from the static table gets `ERROR` severity and
the generic unknown-error message, a kind present in the table gets exactly the
table entry, and in particular `NO_FUTURE_POSITION` is a warning while
`TOO_MANY_DAUGHTER_CELLS`, `NO_PAST_POSITION` and `CELL_MERGE` are errors. -/
theorem C6_severity_and_message_table :
    (∀ e : ErrorKind, error_info e = none →
      get_severity e = Severity.ERROR ∧ get_message e = "Unknown error code " ++ toString e) ∧
    (∀ (e : ErrorKind) (s : Severity) (m : String), error_info e = some (s, m) →
      get_severity e = s ∧ get_message e = m) ∧
    get_severity NO_FUTURE_POSITION = Severity.WARNING ∧
    get_severity TOO_MANY_DAUGHTER_CELLS = Severity.ERROR ∧
    get_severity NO_PAST_POSITION = Severity.ERROR ∧
    get_severity CELL_MERGE = Severity.ERROR := by
  refine ⟨?_, ?_, by decide, by decide, by decide, by decide⟩
  · intro e h
    simp [get_severity, get_message, h]
  · intro e s m h
    simp [get_severity, get_message, h]

/-- Witness for C6 at concrete kinds: 100 is missing from the table, 6 is
`CELL_MERGE`. -/
theorem C6_severity_and_message_table_witness :
    get_severity 100 = Severity.ERROR ∧
    get_message 100 = "Unknown error code " ++ toString (100 : ℕ) ∧
    get_severity 6 = Severity.ERROR := by
  refine ⟨(C6_severity_and_message_table.1 100 (by decide)).1,
    (C6_severity_and_message_table.1 100 (by decide)).2,
    (C6_severity_and_message_table.2.1 6 Severity.ERROR
      "Two cells merged together into this cell. This is impossible." (by decide)).1⟩

/-- C7: a JSON data file with a `version` key different from `v1` makes the
load fail with the `ValueError` naming the version, before any experiment
state is produced (the version check precedes all parsing in
`_load_json_data_file`). -/
theorem C7_unknown_version_rejected :
    ∀ (version : String) (shapes : Option ShapeData)
      (ls lb : Option NodeLinkData) (min_tp max_tp : ℤ), version ≠ "v1" →
      load_json_data_file (JsonData.withVersion version shapes ls lb) min_tp max_tp =
        Except.error ("This program is not able to load data of version " ++ version ++ ".") := by
  intro version shapes ls lb min_tp max_tp h
  simp [load_json_data_file, h]

/-- Witness for C7 at the concrete version string `v2`. -/
theorem C7_unknown_version_rejected_witness :
    load_json_data_file (JsonData.withVersion "v2" none none none) 0 5000 =
      Except.error ("This program is not able to load data of version " ++ "v2" ++ ".") :=
  C7_unknown_version_rejected "v2" none none none 0 5000 (by decide)

/-- C8 counterexample: when the alternate `.ALT` path is not writable either,
the exception raised during the retry propagates, so the error reaching the
caller is the alternate path's `PermissionError`, not the original one. -/
theorem C8_retry_failure_masks_original :
    save_dataframe_to_csv (fun _ => false) "out.csv" = ([], Except.error "out.csv.ALT") ∧
    ("out.csv.ALT" : String) ≠ "out.csv" := by
  exact ⟨rfl, by decide⟩

/-- C8 amended: a successful primary write produces no alternate file and no
error; a failed primary write retries exactly once to the `.ALT` path and, when
that retry write succeeds, re-raises the original error; when the retry write
fails too, the retry's error propagates instead of the original. -/
theorem C8_csv_retry_behaviour :
    ∀ (writable : String → Bool) (f : String),
      (writable f = true →
        save_dataframe_to_csv writable f = ([f], Except.ok ())) ∧
      (writable f = false → writable (f ++ ".ALT") = true →
        save_dataframe_to_csv writable f = ([f ++ ".ALT"], Except.error f)) ∧
      (writable f = false → writable (f ++ ".ALT") = false →
        save_dataframe_to_csv writable f = ([], Except.error (f ++ ".ALT"))) := by
  intro writable f
  refine ⟨fun h1 => ?_, fun h1 h2 => ?_, fun h1 h2 => ?_⟩ <;>
    simp [save_dataframe_to_csv, to_csv, h1, *]

/-- Witness for C8 on a file system where only the primary path is writable. -/
theorem C8_csv_retry_behaviour_witness :
    save_dataframe_to_csv (fun _ => true) "a.csv" = (["a.csv"], Except.ok ()) :=
  (C8_csv_retry_behaviour (fun _ => true) "a.csv").1 rfl

lemma get_closest_particle_step_sp_false (st : ClosestState) (p : Particle) :
    (get_closest_particle_step false st p).search_position = st.search_position := by
  simp only [get_closest_particle_step, Bool.false_eq_true, if_false]
  split <;> rfl

lemma get_closest_particle_step_sp_true (st : ClosestState) (p : Particle) :
    (get_closest_particle_step true st p).search_position =
      { st.search_position with z := p.z } := by
  simp only [get_closest_particle_step, if_true]
  split <;> rfl

lemma foldl_gcp_sp_false :
    ∀ (l : List Particle) (st : ClosestState),
      (l.foldl (get_closest_particle_step false) st).search_position = st.search_position := by
  intro l
  induction l with
  | nil => intro st; rfl
  | cons p rest ih =>
    intro st
    rw [List.foldl_cons, ih, get_closest_particle_step_sp_false]

lemma foldl_gcp_sp_true :
    ∀ (l : List Particle) (st : ClosestState) (h : l ≠ []),
      (l.foldl (get_closest_particle_step true) st).search_position =
        { st.search_position with z := (l.getLast h).z } := by
  intro l
  induction l with
  | nil => intro st h; exact absurd rfl h
  | cons p rest ih =>
    intro st h
    cases rest with
    | nil =>
      rw [List.foldl_cons, List.foldl_nil, get_closest_particle_step_sp_true]
      rfl
    | cons q rest' =>
      rw [List.foldl_cons, ih _ (by simp), get_closest_particle_step_sp_true]
      simp [List.getLast_cons]

/-- C9: with `ignore_z=True`, `get_closest_particle` overwrites the z of its
`search_position` argument with the z of each candidate it examines, so after
the call the argument carries the z of the last candidate (its original z is
gone whenever that differs); with `ignore_z=False` the argument is unchanged. -/
theorem C9_get_closest_particle_mutates_search_position :
    ∀ (particles : List Particle) (search_position : Particle) (max_distance : ℚ),
      (get_closest_particle particles search_position false max_distance).2 = search_position ∧
      ∀ h : particles ≠ [],
        (get_closest_particle particles search_position true max_distance).2 =
          { search_position with z := (particles.getLast h).z } := by
  intro particles search_position max_distance
  constructor
  · exact foldl_gcp_sp_false particles _
  · intro h
    exact foldl_gcp_sp_true particles _ h

/-- Witness for C9: one candidate with z = 3; the search position started at
z = 0 and ends at z = 3 with `ignore_z`, and stays unchanged without it. -/
theorem C9_get_closest_particle_mutates_witness :
    (get_closest_particle [⟨1, 2, 3, none⟩] ⟨0, 0, 0, none⟩ true 100000).2 = ⟨0, 0, 3, none⟩ ∧
    (get_closest_particle [⟨1, 2, 3, none⟩] ⟨0, 0, 0, none⟩ false 100000).2 = ⟨0, 0, 0, none⟩ := by
  have h := C9_get_closest_particle_mutates_search_position
    [⟨1, 2, 3, none⟩] ⟨0, 0, 0, none⟩ 100000
  exact ⟨by simpa using h.2 (by simp), h.1⟩

/-- C10: a particle's time point number is write-once — `with_time_point_number`
raises `ValueError` when it is already set, only succeeds from the unset state
(leaving the coordinates untouched and setting exactly the requested value),
and `add_particles` fails the same way on a particle that already has one. -/
theorem C10_time_point_number_write_once :
    (∀ (p : Particle) (t n : ℤ), p.time_point_number = some n →
      with_time_point_number p t = Except.error "time_point_number was already set") ∧
    (∀ (p : Particle) (t : ℤ) (p' : Particle),
      with_time_point_number p t = Except.ok p' →
      p.time_point_number = none ∧ p'.time_point_number = some t ∧
        p'.x = p.x ∧ p'.y = p.y ∧ p'.z = p.z) ∧
    (∀ (tpn : ℤ) (existing : List Particle) (p : Particle) (n : ℤ) (rest : List Particle),
      p.time_point_number = some n →
      add_particles tpn existing (p :: rest) =
        Except.error "time_point_number was already set") := by
  refine ⟨?_, ?_, ?_⟩
  · intro p t n h
    simp [with_time_point_number, h]
  · intro p t p' h
    obtain ⟨x, y, z, tp⟩ := p
    cases tp with
    | some m => simp [with_time_point_number] at h
    | none =>
      simp only [with_time_point_number] at h
      cases h
      exact ⟨rfl, rfl, rfl, rfl, rfl⟩
  · intro tpn existing p n rest h
    obtain ⟨x, y, z, tp⟩ := p
    simp only at h
    subst h
    rfl

/-- Witness for C10 at concrete particles: setting an already-set time point
number fails, setting an unset one reports the unset state. -/
theorem C10_time_point_number_write_once_witness :
    with_time_point_number ⟨1, 2, 3, some 4⟩ 7 =
      Except.error "time_point_number was already set" ∧
    (⟨1, 2, 3, (none : Option ℤ)⟩ : Particle).time_point_number = none ∧
    add_particles 7 [] [⟨1, 2, 3, some 4⟩] =
      Except.error "time_point_number was already set" := by
  have h := C10_time_point_number_write_once
  exact ⟨h.1 ⟨1, 2, 3, some 4⟩ 7 4 rfl,
    (h.2.1 ⟨1, 2, 3, none⟩ 7 ⟨1, 2, 3, some 7⟩ rfl).1,
    h.2.2 7 [] ⟨1, 2, 3, some 4⟩ 4 [] rfl⟩

/-- C5: a `Path` with fewer than 2 control points answers a path-position query
with `None` as documented, but `PathCollection.get_path_position_2d` crashes on
the documented `None`: with a 2-point path followed by a 1-point path at the
particle's time point it evaluates `position.distance` on `None` and raises
`AttributeError` instead of returning an absent result. -/
theorem C5_path_collection_query_raises :
    get_path_position_2d id idSpline ⟨[5], [5], some 0, 0⟩ ⟨0, 0, 0, none⟩ = none ∧
    path_collection_get_path_position_2d id idSpline
      [⟨[0, 1], [0, 0], some 0, 0⟩, ⟨[5], [5], some 0, 0⟩] ⟨0, 0, 0, none⟩ =
      Except.error () :=
  ⟨rfl, rfl⟩

/-- Shorthand for a time point number lying in the inclusive range. -/
def InRange (min_tp max_tp : ℤ) (p : Particle) : Prop :=
  ∃ t, p.time_point_number = some t ∧ min_tp ≤ t ∧ t ≤ max_tp

lemma foldl_shape_mem (min_tp max_tp : ℤ) :
    ∀ (s : ShapeData) (acc : List Particle) (p : Particle),
      p ∈ s.foldl (fun acc entry =>
        if entry.1 < min_tp ∨ entry.1 > max_tp then acc
        else acc ++ entry.2.map (fun r => ⟨r.x, r.y, r.z, some entry.1⟩)) acc →
      p ∈ acc ∨ InRange min_tp max_tp p := by
  intro s
  induction s with
  | nil => intro acc p hp; exact Or.inl hp
  | cons e rest ih =>
    intro acc p hp
    rw [List.foldl_cons] at hp
    rcases ih _ p hp with hacc | hfound
    · by_cases hc : e.1 < min_tp ∨ e.1 > max_tp
      · rw [if_pos hc] at hacc
        exact Or.inl hacc
      · rw [if_neg hc] at hacc
        rcases List.mem_append.mp hacc with h1 | h2
        · exact Or.inl h1
        · obtain ⟨r, _, rfl⟩ := List.mem_map.mp h2
          push_neg at hc
          exact Or.inr ⟨e.1, rfl, hc.1, hc.2⟩
    · exact Or.inr hfound

lemma parse_shape_format_in_range (s : ShapeData) (min_tp max_tp : ℤ) :
    ∀ p ∈ parse_shape_format s min_tp max_tp, InRange min_tp max_tp p := by
  intro p hp
  rcases foldl_shape_mem min_tp max_tp s [] p hp with h | h
  · simp at h
  · exact h

lemma filter_nodes_sound (min_tp max_tp : ℤ) :
    ∀ (nodes acc res : List Particle),
      nodes.foldlM (fun acc p =>
        match p.time_point_number with
        | none => Except.error ()
        | some t => Except.ok (if min_tp ≤ t ∧ t ≤ max_tp then acc ++ [p] else acc)) acc
        = Except.ok res →
      (∀ p ∈ acc, InRange min_tp max_tp p) → ∀ p ∈ res, InRange min_tp max_tp p := by
  intro nodes
  induction nodes with
  | nil =>
    intro acc res h hacc
    simp only [List.foldlM_nil] at h
    cases h
    exact hacc
  | cons q rest ih =>
    intro acc res h hacc
    rw [List.foldlM_cons] at h
    cases ht : q.time_point_number with
    | none => rw [ht] at h; simp [bind, Except.bind] at h
    | some t =>
      simp only [ht] at h
      simp only [bind, Except.bind] at h
      refine ih _ res h ?_
      intro p hp
      by_cases hr : min_tp ≤ t ∧ t ≤ max_tp
      · rw [if_pos hr] at hp
        rcases List.mem_append.mp hp with h1 | h2
        · exact hacc p h1
        · rcases List.mem_singleton.mp h2 with rfl
          exact ⟨t, ht, hr.1, hr.2⟩
      · rw [if_neg hr] at hp
        exact hacc p hp

lemma filter_links_sound (min_tp max_tp : ℤ) :
    ∀ (links acc res : List (Particle × Particle)),
      links.foldlM (fun acc l =>
        match l.1.time_point_number with
        | none => Except.error ()
        | some ts =>
          if min_tp ≤ ts ∧ ts ≤ max_tp then
            match l.2.time_point_number with
            | none => Except.error ()
            | some tt =>
              Except.ok (if min_tp ≤ tt ∧ tt ≤ max_tp then acc ++ [l] else acc)
          else Except.ok acc) acc = Except.ok res →
      (∀ l ∈ acc, InRange min_tp max_tp l.1 ∧ InRange min_tp max_tp l.2) →
      ∀ l ∈ res, InRange min_tp max_tp l.1 ∧ InRange min_tp max_tp l.2 := by
  intro links
  induction links with
  | nil =>
    intro acc res h hacc
    simp only [List.foldlM_nil] at h
    cases h
    exact hacc
  | cons q rest ih =>
    intro acc res h hacc
    rw [List.foldlM_cons] at h
    cases hts : q.1.time_point_number with
    | none => rw [hts] at h; simp [bind, Except.bind] at h
    | some ts =>
      simp only [hts] at h
      by_cases hrs : min_tp ≤ ts ∧ ts ≤ max_tp
      · rw [if_pos hrs] at h
        cases htt : q.2.time_point_number with
        | none => rw [htt] at h; simp [bind, Except.bind] at h
        | some tt =>
          simp only [htt] at h
          simp only [bind, Except.bind] at h
          refine ih _ res h ?_
          intro l hl
          by_cases hrt : min_tp ≤ tt ∧ tt ≤ max_tp
          · rw [if_pos hrt] at hl
            rcases List.mem_append.mp hl with h1 | h2
            · exact hacc l h1
            · rcases List.mem_singleton.mp h2 with rfl
              exact ⟨⟨ts, hts, hrs.1, hrs.2⟩, ⟨tt, htt, hrt.1, hrt.2⟩⟩
          · rw [if_neg hrt] at hl
            exact hacc l hl
      · rw [if_neg hrs] at h
        simp only [bind, Except.bind] at h
        exact ih _ res h hacc

/-- C2 counterexample: a v1 file whose `links_scratch` section holds a node at
time point 10 is loaded with the range `[0, 5]`, yet the node ends up among the
experiment's positions and in the scratch links — `_load_json_data_file`
applies no time filter to the `links_scratch`/`links_baseline` sections. -/
theorem C2_links_sections_not_time_filtered :
    load_json_data_file scratchAt10 0 5 =
      Except.ok ⟨[⟨1, 2, 3, some 10⟩], some ⟨[⟨1, 2, 3, some 10⟩], []⟩, none⟩ ∧
    (⟨1, 2, 3, some 10⟩ : Particle).time_point_number = some 10 ∧
    ¬((10 : ℤ) ≤ 5) := by
  refine ⟨rfl, rfl, by decide⟩

/-- C2 amended: the caller-supplied inclusive time-point range is enforced for
the position/shape format (both the bare mapping and the v1 `shapes` section go
through `_parse_shape_format`) and by `load_links_from_json` for both nodes and
links; the v1 `links_scratch`/`links_baseline` sections and the bare node-link
format in `_load_json_data_file` are loaded without any time filtering. -/
theorem C2_time_filtering_amended :
    (∀ (s : ShapeData) (min_tp max_tp : ℤ),
      ∀ p ∈ parse_shape_format s min_tp max_tp, InRange min_tp max_tp p) ∧
    (∀ (s : ShapeData) (min_tp max_tp : ℤ) (e : LoadedExperiment),
      load_json_data_file (JsonData.noVersionShapes s) min_tp max_tp = Except.ok e →
      ∀ p ∈ e.positions, InRange min_tp max_tp p) ∧
    (∀ (d : NodeLinkData) (min_tp max_tp : ℤ) (res : NodeLinkData),
      load_links_from_json d min_tp max_tp = Except.ok res →
      (∀ p ∈ res.nodes, InRange min_tp max_tp p) ∧
      (∀ l ∈ res.links, InRange min_tp max_tp l.1 ∧ InRange min_tp max_tp l.2)) := by
  refine ⟨parse_shape_format_in_range, ?_, ?_⟩
  · intro s min_tp max_tp e h
    simp only [load_json_data_file] at h
    cases h
    exact parse_shape_format_in_range s min_tp max_tp
  · intro d min_tp max_tp res h
    simp only [load_links_from_json] at h
    cases hn : filter_nodes min_tp max_tp d.nodes with
    | error u => rw [hn] at h; simp [bind, Except.bind] at h
    | ok nodes =>
      rw [hn] at h
      cases hl : filter_links min_tp max_tp d.links with
      | error u => rw [hl] at h; simp [bind, Except.bind] at h
      | ok links =>
        rw [hl] at h
        simp only [bind, Except.bind, pure, Except.pure] at h
        cases h
        constructor
        · exact filter_nodes_sound min_tp max_tp d.nodes [] nodes hn (by simp)
        · exact filter_links_sound min_tp max_tp d.links [] links hl (by simp)

/-- Witness for C2's amended theorem on a concrete shape file and a concrete
node-link file, each holding one in-range entry. -/
theorem C2_time_filtering_amended_witness :
    InRange 0 5 ⟨1, 2, 3, some 4⟩ := by
  have h := C2_time_filtering_amended.1 [(4, [⟨1, 2, 3, []⟩])] 0 5 ⟨1, 2, 3, some 4⟩
  exact h (by simp [parse_shape_format])

lemma findClosestSegment_aux (xs ys : List ℚ) (px py : ℚ) :
    ∀ (l : List ℕ) (b : ℚ × ℕ),
      ∃ best, l.foldl (fun acc i =>
        let d := distance_to_line_segment_squared
          (xs.getD (i - 1) 0) (ys.getD (i - 1) 0) (xs.getD i 0) (ys.getD i 0) px py
        match acc with
        | none => some (d, i)
        | some best => if d < best.1 then some (d, i) else some best) (some b) = some best := by
  intro l
  induction l with
  | nil => intro b; exact ⟨b, rfl⟩
  | cons i t ih =>
    intro b
    rw [List.foldl_cons]
    dsimp only
    split
    · exact ih _
    · exact ih _

lemma findClosestSegment_isSome (xs ys : List ℚ) (px py : ℚ) (h : 2 ≤ xs.length) :
    ∃ best, findClosestSegment xs ys px py = some best := by
  unfold findClosestSegment
  obtain ⟨k, hk⟩ : ∃ k, xs.length - 1 = k + 1 :=
    ⟨xs.length - 2, by omega⟩
  rw [hk, List.range'_succ, List.foldl_cons]
  dsimp only
  exact findClosestSegment_aux xs ys px py _ _

lemma get_path_position_2d_isSome (sq : ℚ → ℚ) (spline : List ℚ → List ℚ → List ℚ × List ℚ)
    (p : PyPath) (particle : Particle) (hx : 2 ≤ p.x_list.length)
    (hs : 2 ≤ (spline p.x_list p.y_list).1.length) :
    ∃ pp, get_path_position_2d sq spline p particle = some pp := by
  have hinterp : calculate_interpolation spline p = spline p.x_list p.y_list := by
    unfold calculate_interpolation
    rw [if_neg (by omega)]
  unfold get_path_position_2d
  rw [hinterp, if_neg (by omega)]
  obtain ⟨best, hbest⟩ := findClosestSegment_isSome
    (spline p.x_list p.y_list).1 (spline p.x_list p.y_list).2 particle.x particle.y hs
  rw [hbest]
  exact ⟨_, rfl⟩

lemma get_path_position_2d_offset_shift (sq : ℚ → ℚ)
    (spline : List ℚ → List ℚ → List ℚ × List ℚ) (xl yl : List ℚ) (z : Option ℤ)
    (off m : ℚ) (particle : Particle) :
    get_path_position_2d sq spline ⟨xl, yl, z, off + m⟩ particle =
      (get_path_position_2d sq spline ⟨xl, yl, z, off⟩ particle).map
        (fun pp => ⟨pp.pos - m, pp.distance⟩) := by
  simp only [get_path_position_2d, calculate_interpolation]
  split <;> split <;> try rfl
  all_goals split
  all_goals try rfl
  all_goals simp only [Option.map_some']
  all_goals congr 1
  all_goals simp only [PathPos.mk.injEq]
  all_goals exact ⟨by ring, trivial⟩

lemma update_fold_eq (sq : ℚ → ℚ) (spline : List ℚ → List ℚ → List ℚ × List ℚ)
    (p : PyPath) :
    ∀ (S : List Particle), (∀ s ∈ S, (get_path_position_2d sq spline p s).isSome) →
      ∀ acc : Option ℚ,
      S.foldlM (fun acc particle =>
        match get_path_position_2d sq spline p particle with
        | none => Except.error ()
        | some pp => Except.ok (lowStep acc pp.pos)) acc =
        Except.ok ((S.filterMap
          (fun s => (get_path_position_2d sq spline p s).map PathPos.pos)).foldl lowStep acc) := by
  intro S
  induction S with
  | nil => intro _ acc; rfl
  | cons s rest ih =>
    intro hall acc
    obtain ⟨pp, hpp⟩ := Option.isSome_iff_exists.mp (hall s (by simp))
    rw [List.foldlM_cons]
    simp only [hpp, bind, Except.bind]
    rw [ih (fun q hq => hall q (by simp [hq]))]
    congr 1
    simp only [List.filterMap_cons, hpp, Option.map_some', List.foldl_cons]

lemma foldl_low_sub (c : ℚ) :
    ∀ (l : List ℚ) (acc : Option ℚ),
      (l.map (fun x => x - c)).foldl lowStep (acc.map (fun x => x - c)) =
        ((l.foldl lowStep acc).map (fun x => x - c)) := by
  intro l
  induction l with
  | nil => intro acc; rfl
  | cons v t ih =>
    intro acc
    rw [List.map_cons, List.foldl_cons, List.foldl_cons]
    have hstep : lowStep (acc.map (fun x => x - c)) (v - c) =
        (lowStep acc v).map (fun x => x - c) := by
      cases acc with
      | none => rfl
      | some m =>
        simp only [lowStep, Option.map_some']
        by_cases hvm : v < m
        · rw [if_pos (show v - c < m - c by linarith), if_pos hvm]
          rfl
        · rw [if_neg (show ¬(v - c < m - c) by intro hc; exact hvm (by linarith)),
            if_neg hvm]
          rfl
    rw [hstep, ih]

lemma foldl_low_spec :
    ∀ (l : List ℚ) (b : ℚ),
      ∃ m, l.foldl lowStep (some b) = some m ∧ (m = b ∨ m ∈ l) ∧ m ≤ b ∧ ∀ x ∈ l, m ≤ x := by
  intro l
  induction l with
  | nil => intro b; exact ⟨b, rfl, Or.inl rfl, le_refl b, by simp⟩
  | cons v t ih =>
    intro b
    rw [List.foldl_cons]
    simp only [lowStep]
    by_cases hvb : v < b
    · rw [if_pos hvb]
      obtain ⟨m, h1, h2, h3, h4⟩ := ih v
      refine ⟨m, h1, ?_, by linarith, ?_⟩
      · rcases h2 with rfl | h2
        · exact Or.inr (by simp)
        · exact Or.inr (by simp [h2])
      · intro x hx
        rcases List.mem_cons.mp hx with rfl | hx
        · exact h3
        · exact h4 x hx
    · rw [if_neg hvb]
      obtain ⟨m, h1, h2, h3, h4⟩ := ih b
      refine ⟨m, h1, ?_, h3, ?_⟩
      · rcases h2 with rfl | h2
        · exact Or.inl rfl
        · exact Or.inr (by simp [h2])
      · intro x hx
        rcases List.mem_cons.mp hx with rfl | hx
        · linarith [not_lt.mp hvb]
        · exact h4 x hx

lemma foldLowest_spec (l : List ℚ) (h : l ≠ []) :
    ∃ m, foldLowest l = some m ∧ m ∈ l ∧ ∀ x ∈ l, m ≤ x := by
  cases l with
  | nil => exact absurd rfl h
  | cons v t =>
    unfold foldLowest
    rw [List.foldl_cons]
    obtain ⟨m, h1, h2, h3, h4⟩ := foldl_low_spec t v
    refine ⟨m, h1, ?_, ?_⟩
    · rcases h2 with rfl | h2
      · exact List.mem_cons_self _ _
      · exact List.mem_cons_of_mem _ h2
    · intro x hx
      rcases List.mem_cons.mp hx with rfl | hx
      · exact h3
      · exact h4 x hx

/-- C4: after `update_offset_for_particles(S)` on a path with at least 2
control points (whose spline interpolation has at least 2 samples) and a
non-empty particle list S, every particle in S still gets a path position, the
minimum of the returned `pos` values over S (computed by the same lowest-value
loop the code uses) is exactly 0, 0 is attained, and no value is below 0. -/
theorem C4_update_offset_calibration :
    ∀ (sq : ℚ → ℚ) (spline : List ℚ → List ℚ → List ℚ × List ℚ)
      (p : PyPath) (S : List Particle),
      2 ≤ p.x_list.length → 2 ≤ (spline p.x_list p.y_list).1.length → S ≠ [] →
      ∃ p', update_offset_for_particles sq spline p S = Except.ok p' ∧
        p'.x_list = p.x_list ∧ p'.y_list = p.y_list ∧
        (∀ s ∈ S, (get_path_position_2d sq spline p' s).isSome) ∧
        foldLowest (S.filterMap
          (fun s => (get_path_position_2d sq spline p' s).map PathPos.pos)) = some 0 ∧
        (0 : ℚ) ∈ S.filterMap
          (fun s => (get_path_position_2d sq spline p' s).map PathPos.pos) ∧
        ∀ v ∈ S.filterMap
          (fun s => (get_path_position_2d sq spline p' s).map PathPos.pos), 0 ≤ v := by
  intro sq spline p S hx hs hS
  obtain ⟨xl, yl, z, off⟩ := p
  have hsome : ∀ s ∈ S, (get_path_position_2d sq spline ⟨xl, yl, z, off⟩ s).isSome := by
    intro s _
    obtain ⟨pp, hpp⟩ := get_path_position_2d_isSome sq spline ⟨xl, yl, z, off⟩ s hx hs
    simp [hpp]
  set L := S.filterMap
    (fun s => (get_path_position_2d sq spline ⟨xl, yl, z, off⟩ s).map PathPos.pos) with hL
  have hLne : L ≠ [] := by
    cases S with
    | nil => exact absurd rfl hS
    | cons s rest =>
      obtain ⟨pp, hpp⟩ := Option.isSome_iff_exists.mp (hsome s (by simp))
      simp only [hL, List.filterMap_cons, hpp, Option.map_some]
      exact List.cons_ne_nil _ _
  obtain ⟨m, hm, hmem, hmin⟩ := foldLowest_spec L hLne
  have hupd : update_offset_for_particles sq spline ⟨xl, yl, z, off⟩ S =
      Except.ok ⟨xl, yl, z, off + m⟩ := by
    unfold update_offset_for_particles
    rw [if_neg (by omega)]
    rw [update_fold_eq sq spline ⟨xl, yl, z, off⟩ S hsome none]
    have : (L.foldl lowStep none) = some m := hm
    simp only [bind, Except.bind, hL] at this ⊢
    rw [this]
  have hfun : (fun s => (get_path_position_2d sq spline ⟨xl, yl, z, off + m⟩ s).map PathPos.pos) =
      (fun s => ((get_path_position_2d sq spline ⟨xl, yl, z, off⟩ s).map PathPos.pos).map
        (fun x => x - m)) := by
    funext s
    rw [get_path_position_2d_offset_shift]
    cases get_path_position_2d sq spline ⟨xl, yl, z, off⟩ s <;> rfl
  have hshift : S.filterMap
      (fun s => (get_path_position_2d sq spline ⟨xl, yl, z, off + m⟩ s).map PathPos.pos) =
      L.map (fun x => x - m) := by
    rw [hfun, ← List.map_filterMap, ← hL]
  refine ⟨⟨xl, yl, z, off + m⟩, hupd, rfl, rfl, ?_, ?_, ?_, ?_⟩
  · intro s hsS
    rw [get_path_position_2d_offset_shift]
    obtain ⟨pp, hpp⟩ := Option.isSome_iff_exists.mp (hsome s hsS)
    simp [hpp]
  · rw [hshift]
    unfold foldLowest
    have hsub := foldl_low_sub m L none
    simp only [Option.map_none'] at hsub
    rw [hsub, show List.foldl lowStep none L = some m from hm]
    simp only [Option.map_some']
    congr 1
    ring
  · rw [hshift]
    refine List.mem_map.mpr ⟨m, hmem, by ring⟩
  · rw [hshift]
    intro v hv
    obtain ⟨x, hxL, rfl⟩ := List.mem_map.mp hv
    have := hmin x hxL
    linarith

/-- Witness for C4 on a concrete two-point path and a one-particle set. -/
theorem C4_update_offset_calibration_witness :
    ∃ p', update_offset_for_particles id idSpline ⟨[0, 1], [0, 0], some 0, 0⟩
        [⟨0, 0, 0, none⟩] = Except.ok p' ∧
      p'.x_list = ([0, 1] : List ℚ) ∧ p'.y_list = ([0, 0] : List ℚ) ∧
      (∀ s ∈ [(⟨0, 0, 0, none⟩ : Particle)],
        (get_path_position_2d id idSpline p' s).isSome) ∧
      foldLowest ([(⟨0, 0, 0, none⟩ : Particle)].filterMap
        (fun s => (get_path_position_2d id idSpline p' s).map PathPos.pos)) = some 0 ∧
      (0 : ℚ) ∈ [(⟨0, 0, 0, none⟩ : Particle)].filterMap
        (fun s => (get_path_position_2d id idSpline p' s).map PathPos.pos) ∧
      ∀ v ∈ [(⟨0, 0, 0, none⟩ : Particle)].filterMap
        (fun s => (get_path_position_2d id idSpline p' s).map PathPos.pos), 0 ≤ v :=
  C4_update_offset_calibration id idSpline ⟨[0, 1], [0, 0], some 0, 0⟩ [⟨0, 0, 0, none⟩]
    (by decide) (by decide) (by simp)

lemma insertSorted_perm (a : ℚ × Particle) :
    ∀ l, List.Perm (insertSorted a l) (a :: l) := by
  intro l
  induction l with
  | nil => exact List.Perm.refl _
  | cons b t ih =>
    unfold insertSorted
    by_cases h : a.1 < b.1
    · rw [if_pos h]
    · rw [if_neg h]
      exact (ih.cons b).trans (List.Perm.swap a b t)

lemma insertSorted_length (a : ℚ × Particle) (l : List (ℚ × Particle)) :
    (insertSorted a l).length = l.length + 1 := by
  simpa using (insertSorted_perm a l).length_eq

lemma mem_insertSorted {e a : ℚ × Particle} {l : List (ℚ × Particle)} :
    e ∈ insertSorted a l ↔ e = a ∨ e ∈ l := by
  rw [(insertSorted_perm a l).mem_iff, List.mem_cons]

lemma insertSorted_sorted (a : ℚ × Particle) :
    ∀ l, List.Pairwise (fun x y : ℚ × Particle => x.1 ≤ y.1) l →
      List.Pairwise (fun x y : ℚ × Particle => x.1 ≤ y.1) (insertSorted a l) := by
  intro l
  induction l with
  | nil => intro _; simp [insertSorted]
  | cons b t ih =>
    intro hp
    rw [List.pairwise_cons] at hp
    obtain ⟨hb, ht⟩ := hp
    unfold insertSorted
    by_cases h : a.1 < b.1
    · rw [if_pos h]
      refine List.pairwise_cons.mpr ⟨?_, List.pairwise_cons.mpr ⟨hb, ht⟩⟩
      intro e he
      rcases List.mem_cons.mp he with rfl | he
      · exact le_of_lt h
      · exact le_trans (le_of_lt h) (hb e he)
    · rw [if_neg h]
      refine List.pairwise_cons.mpr ⟨?_, ih ht⟩
      intro e he
      rcases mem_insertSorted.mp he with rfl | he
      · exact le_of_not_lt h
      · exact hb e he

lemma insertSorted_concat (a b : ℚ × Particle) (h : a.1 < b.1) :
    ∀ l, insertSorted a (l ++ [b]) = insertSorted a l ++ [b] := by
  intro l
  induction l with
  | nil => simp [insertSorted, if_pos h]
  | cons c t ih =>
    simp only [List.cons_append, insertSorted, List.append_eq]
    by_cases hc : a.1 < c.1
    · rw [if_pos hc, if_pos hc]
      rfl
    · rw [if_neg hc, if_neg hc, ih]
      rfl

lemma gcn_step_inv (sp : Particle) (amount : ℕ) (maxd : ℚ)
    (processed : List Particle) (closest closest' : List (ℚ × Particle)) (p : Particle)
    (hinv : GcnInv sp amount maxd processed closest)
    (hstep : get_closest_n_particles_step sp amount maxd closest p = Except.ok closest') :
    GcnInv sp amount maxd (processed ++ [p]) closest' := by
  obtain ⟨hsort, hlen, helem, hexcl, hfull⟩ := hinv
  unfold get_closest_n_particles_step at hstep
  by_cases hd : distance_squared p sp 5 > maxd
  · rw [if_pos hd] at hstep
    cases hstep
    refine ⟨hsort, hlen, ?_, ?_, ?_⟩
    · intro e he
      obtain ⟨h1, h2, h3⟩ := helem e he
      exact ⟨h1, List.mem_append_left _ h2, h3⟩
    · intro q hq hqle hqnot
      rcases List.mem_append.mp hq with hq | hq
      · exact hexcl q hq hqle hqnot
      · rcases List.mem_singleton.mp hq with rfl
        exact absurd hqle (by linarith)
    · intro hlt q hq hqle
      rcases List.mem_append.mp hq with hq | hq
      · exact hfull hlt q hq hqle
      · rcases List.mem_singleton.mp hq with rfl
        exact absurd hqle (by linarith)
  · rw [if_neg hd] at hstep
    push_neg at hd
    by_cases hnotfull : closest.length < amount
    · rw [if_pos hnotfull] at hstep
      have htrim : trimToAmount amount
          (insertSorted (distance_squared p sp 5, p) closest) =
          insertSorted (distance_squared p sp 5, p) closest := by
        unfold trimToAmount
        rw [if_neg (by rw [insertSorted_length]; omega)]
      rw [htrim] at hstep
      cases hstep
      refine ⟨insertSorted_sorted _ _ hsort, by rw [insertSorted_length]; omega, ?_, ?_, ?_⟩
      · intro e he
        rcases mem_insertSorted.mp he with rfl | he
        · exact ⟨rfl, List.mem_append_right _ (by simp), hd⟩
        · obtain ⟨h1, h2, h3⟩ := helem e he
          exact ⟨h1, List.mem_append_left _ h2, h3⟩
      · intro q hq hqle hqnot
        exfalso
        rcases List.mem_append.mp hq with hq | hq
        · exact hqnot (List.mem_map.mpr ⟨_, mem_insertSorted.mpr
            (Or.inr (List.mem_map.mp (hfull hnotfull q hq hqle)).choose_spec.1), by
              exact (List.mem_map.mp (hfull hnotfull q hq hqle)).choose_spec.2⟩)
        · rcases List.mem_singleton.mp hq with rfl
          exact hqnot (List.mem_map.mpr ⟨_, mem_insertSorted.mpr (Or.inl rfl), rfl⟩)
      · intro _ q hq hqle
        rcases List.mem_append.mp hq with hq | hq
        · obtain ⟨e, he, hee⟩ := List.mem_map.mp (hfull hnotfull q hq hqle)
          exact List.mem_map.mpr ⟨e, mem_insertSorted.mpr (Or.inr he), hee⟩
        · rcases List.mem_singleton.mp hq with rfl
          exact List.mem_map.mpr ⟨_, mem_insertSorted.mpr (Or.inl rfl), rfl⟩
    · rw [if_neg hnotfull] at hstep
      have hlen_eq : closest.length = amount := by omega
      cases hlast : closest.getLast? with
      | none =>
        simp only [hlast] at hstep
        exact Except.noConfusion hstep
      | some last =>
        simp only [hlast] at hstep
        have hdecomp : closest.dropLast ++ [last] = closest :=
          List.dropLast_append_getLast? last hlast
        have hne : closest ≠ [] := by
          intro hc
          rw [hc] at hlast
          simp at hlast
        have hlast_in : last ∈ closest := by
          rw [← hdecomp]
          exact List.mem_append_right _ (by simp)
        have hdl_le : ∀ e ∈ closest.dropLast, e.1 ≤ last.1 := by
          intro e he
          have hp2 := hsort
          rw [← hdecomp] at hp2
          exact (List.pairwise_append.mp hp2).2.2 e he last (by simp)
        by_cases hgt : last.1 > distance_squared p sp 5
        · rw [if_pos hgt] at hstep
          have hins : insertSorted (distance_squared p sp 5, p) closest =
              insertSorted (distance_squared p sp 5, p) closest.dropLast ++ [last] := by
            conv_lhs => rw [← hdecomp]
            exact insertSorted_concat _ _ hgt _
          have htrim : trimToAmount amount
              (insertSorted (distance_squared p sp 5, p) closest) =
              insertSorted (distance_squared p sp 5, p) closest.dropLast := by
            unfold trimToAmount
            rw [if_pos (by rw [insertSorted_length]; omega), hins, List.dropLast_concat]
          rw [htrim] at hstep
          cases hstep
          have hdl_len : closest.dropLast.length = amount - 1 := by
            rw [List.length_dropLast, hlen_eq]
          have hamt_pos : 1 ≤ amount := by
            rcases Nat.eq_zero_or_pos amount with h0 | h1
            · exfalso
              apply hne
              rw [← List.length_eq_zero, hlen_eq, h0]
            · exact h1
          refine ⟨insertSorted_sorted _ _ (hsort.sublist (List.dropLast_sublist _)),
            by rw [insertSorted_length]; omega, ?_, ?_, ?_⟩
          · intro e he
            rcases mem_insertSorted.mp he with rfl | he
            · exact ⟨rfl, List.mem_append_right _ (by simp), hd⟩
            · obtain ⟨h1, h2, h3⟩ := helem e ((List.dropLast_sublist _).mem he)
              exact ⟨h1, List.mem_append_left _ h2, h3⟩
          · intro q hq hqle hqnot
            rcases List.mem_append.mp hq with hq | hq
            · by_cases hqin : q ∈ closest.map Prod.snd
              · have hq_not_dl : q ∉ (closest.dropLast).map Prod.snd := by
                  intro hmem
                  obtain ⟨e, he, hee⟩ := List.mem_map.mp hmem
                  exact hqnot (List.mem_map.mpr ⟨e, mem_insertSorted.mpr (Or.inr he), hee⟩)
                have hqlast : q = last.2 := by
                  obtain ⟨e, he, hee⟩ := List.mem_map.mp hqin
                  rw [← hdecomp] at he
                  rcases List.mem_append.mp he with he | he
                  · exact absurd (List.mem_map.mpr ⟨e, he, hee⟩) hq_not_dl
                  · rcases List.mem_singleton.mp he with rfl
                    exact hee.symm
                obtain ⟨hl1, _, _⟩ := helem last hlast_in
                intro e he
                rcases mem_insertSorted.mp he with rfl | he
                · rw [hqlast, ← hl1]
                  exact le_of_lt hgt
                · rw [hqlast, ← hl1]
                  exact hdl_le e he
              · have hold := hexcl q hq hqle hqin
                intro e he
                rcases mem_insertSorted.mp he with rfl | he
                · exact le_trans (le_of_lt hgt) (hold last hlast_in)
                · exact hold e ((List.dropLast_sublist _).mem he)
            · rcases List.mem_singleton.mp hq with rfl
              exfalso
              exact hqnot (List.mem_map.mpr ⟨_, mem_insertSorted.mpr (Or.inl rfl), rfl⟩)
          · intro hlt
            exfalso
            rw [insertSorted_length] at hlt
            omega
        · rw [if_neg hgt] at hstep
          cases hstep
          push_neg at hgt
          refine ⟨hsort, hlen, ?_, ?_, ?_⟩
          · intro e he
            obtain ⟨h1, h2, h3⟩ := helem e he
            exact ⟨h1, List.mem_append_left _ h2, h3⟩
          · intro q hq hqle hqnot
            rcases List.mem_append.mp hq with hq | hq
            · exact hexcl q hq hqle hqnot
            · rcases List.mem_singleton.mp hq with rfl
              intro e he
              rw [← hdecomp] at he
              rcases List.mem_append.mp he with he | he
              · exact le_trans (hdl_le e he) hgt
              · rcases List.mem_singleton.mp he with rfl
                exact hgt
          · intro hlt
            exfalso
            omega

lemma gcn_inv_init (sp : Particle) (amount : ℕ) (maxd : ℚ) :
    GcnInv sp amount maxd [] [] :=
  ⟨List.Pairwise.nil, by simp, by simp, by simp, by simp⟩

lemma gcn_fold_inv (sp : Particle) (amount : ℕ) (maxd : ℚ) :
    ∀ (rest processed : List Particle) (closest : List (ℚ × Particle)),
      GcnInv sp amount maxd processed closest →
      ∀ res, rest.foldlM (get_closest_n_particles_step sp amount maxd) closest =
        Except.ok res →
      GcnInv sp amount maxd (processed ++ rest) res := by
  intro rest
  induction rest with
  | nil =>
    intro processed closest hinv res h
    simp only [List.foldlM_nil] at h
    cases h
    simpa using hinv
  | cons p rest ih =>
    intro processed closest hinv res h
    rw [List.foldlM_cons] at h
    cases hstep : get_closest_n_particles_step sp amount maxd closest p with
    | error e =>
      rw [hstep] at h
      simp [bind, Except.bind] at h
    | ok c' =>
      rw [hstep] at h
      simp only [bind, Except.bind] at h
      have := ih (processed ++ [p]) c'
        (gcn_step_inv sp amount maxd processed closest c' p hinv hstep) res h
      simpa [List.append_assoc] using this

/-- C3: on the candidate list of the nearest-neighbour test, searching around
(0,-1,0) with `max_amount` 3 returns exactly the particles (0,0,0), (0,1,0) and
(0,2,0); in general, a successful search returns at most `amount` particles,
only candidates within `max_distance`, and never a candidate farther (in the
squared-distance metric of the code) than some excluded qualifying candidate. -/
theorem C3_closest_n_search :
    (get_closest_n_particles testCandidates ⟨0, -1, 0, none⟩ 3 100000 =
      Except.ok [⟨0, 0, 0, none⟩, ⟨0, 1, 0, none⟩, ⟨0, 2, 0, none⟩] ∧
     (∀ x : Particle, x ∈ [(⟨0, 0, 0, none⟩ : Particle), ⟨0, 1, 0, none⟩, ⟨0, 2, 0, none⟩] ↔
        (x = ⟨0, 0, 0, none⟩ ∨ x = ⟨0, 2, 0, none⟩ ∨ x = ⟨0, 1, 0, none⟩))) ∧
    (∀ (particles : List Particle) (sp : Particle) (amount : ℕ) (max_distance : ℚ)
      (res : List Particle),
      get_closest_n_particles particles sp amount max_distance = Except.ok res →
      res.length ≤ amount ∧
      (∀ q ∈ res, q ∈ particles ∧ distance_squared q sp 5 ≤ max_distance ^ 2) ∧
      (∀ q ∈ particles, distance_squared q sp 5 ≤ max_distance ^ 2 → q ∉ res →
        ∀ r ∈ res, distance_squared r sp 5 ≤ distance_squared q sp 5)) := by
  constructor
  · constructor
    · norm_num [get_closest_n_particles, testCandidates, List.foldlM_cons, List.foldlM_nil,
        get_closest_n_particles_step, distance_squared, insertSorted, trimToAmount,
        bind, Except.bind, Except.map, pure, Except.pure]
    · intro x
      constructor
      · intro hx
        rcases List.mem_cons.mp hx with rfl | hx
        · exact Or.inl rfl
        rcases List.mem_cons.mp hx with rfl | hx
        · exact Or.inr (Or.inr rfl)
        rcases List.mem_cons.mp hx with rfl | hx
        · exact Or.inr (Or.inl rfl)
        · simp at hx
      · intro hx
        rcases hx with rfl | rfl | rfl <;> simp
  · intro particles sp amount max_distance res h
    unfold get_closest_n_particles at h
    cases hfold : particles.foldlM
        (get_closest_n_particles_step sp amount (max_distance ^ 2)) [] with
    | error e =>
      rw [hfold] at h
      simp [Except.map] at h
    | ok closest =>
      rw [hfold] at h
      simp only [Except.map] at h
      cases h
      obtain ⟨hsort, hlen, helem, hexcl, _⟩ :=
        gcn_fold_inv sp amount (max_distance ^ 2) particles [] [] (gcn_inv_init _ _ _)
          closest hfold
      refine ⟨by simpa using hlen, ?_, ?_⟩
      · intro q hq
        obtain ⟨e, he, rfl⟩ := List.mem_map.mp hq
        obtain ⟨h1, h2, h3⟩ := helem e he
        rw [← h1]
        exact ⟨by simpa using h2, h3⟩
      · intro q hq hqle hqnot
        intro r hr
        obtain ⟨e, he, rfl⟩ := List.mem_map.mp hr
        obtain ⟨h1, _, _⟩ := helem e he
        rw [← h1]
        exact hexcl q (by simpa using hq) hqle hqnot e he

/-- Witness for C3's general part, applied to the test input via the concrete
run of the first part. -/
theorem C3_closest_n_search_witness :
    ([(⟨0, 0, 0, none⟩ : Particle), ⟨0, 1, 0, none⟩, ⟨0, 2, 0, none⟩] : List Particle).length ≤ 3 ∧
    (∀ q ∈ [(⟨0, 0, 0, none⟩ : Particle), ⟨0, 1, 0, none⟩, ⟨0, 2, 0, none⟩],
      q ∈ testCandidates ∧
        distance_squared q ⟨0, -1, 0, none⟩ 5 ≤ (100000 : ℚ) ^ 2) := by
  have h := C3_closest_n_search.2 testCandidates ⟨0, -1, 0, none⟩ 3 100000
    [⟨0, 0, 0, none⟩, ⟨0, 1, 0, none⟩, ⟨0, 2, 0, none⟩] C3_closest_n_search.1.1
  exact ⟨h.1, h.2.1⟩

end OrganoidTracker
